import Mathlib

/-
Verification of the Connect Four game core of this repository.

The repository holds two variants of the same game class:
  * src/connect4.js        — cells hold the numbers 1 / 2 (the active player's number);
  * src/unnamed/part_000   — cells hold Player objects, compared by reference identity.

Shallow embedding conventions:
  * A board (`this.board`, an array of rows of cells) is embedded as a total
    function `Nat → Int → Option Nat`: JavaScript reads of any absent index —
    above the rows, beyond a row's length, or at a negative index — yield
    `undefined`, embedded as `none`, and an assignment at any integer index
    stores a value there.  Row indices are `Nat` because every row index the
    code ever produces is non-negative (`findSpotForCol` counts down to 0 and
    the win-scan directions only add to `y`); column indices are `Int`
    because `handleClick` receives the clicked column unchecked and the
    diagonal-down-left scan forms `x-1`, `x-2`, `x-3`.
  * For src/connect4.js a stored cell value is the JavaScript number written
    by `this.board[y][x] = this.currPlayer`; the emptiness test
    `!this.board[y][x]` is falsiness of `undefined` or of the number 0,
    embedded as `truthyNum`.
  * For src/unnamed/part_000 a stored cell value is the allocation identity
    of the Player object written by `this.board[y][x] = this.players[this.currPlayer]`
    (two `new Player(...)` objects are never `===`-equal, whatever their
    colors, so reference identity is exactly identity of the allocation tag);
    any object is truthy, embedded as `truthyObj`.
  * The `alert(msg)` performed by `endGame` is the observable end-of-game
    report; `handleClick` is embedded as returning the new state together
    with `Option String`, the alert message if one was raised.
-/

/-- Loop of findSpotForCol (both variants, src/connect4.js lines 76-83):
for (let y = height - 1; y >= 0; y--) if the cell test is falsy return y;
return null.  The argument is the truthiness test of cell y of the clicked
column; the fuel is the number of rows still to inspect, so the bottom row
is inspected first. -/
def findSpotAux (t : Nat → Bool) : Nat → Option Nat
  | 0 => none
  | n + 1 => if t n then findSpotAux t n else some n

/-- Assignment this.board[y][x] = v on the function embedding of the board. -/
def writeCell (b : Nat → Int → Option Nat) (y : Nat) (x : Int) (v : Option Nat) :
    Nat → Int → Option Nat :=
  fun y0 x0 => if y0 = y ∧ x0 = x then v else b y0 x0

/-- Truthiness of a cell of src/connect4.js: cells hold JavaScript numbers,
so undefined and 0 are falsy and every other number is truthy. -/
def truthyNum (c : Option Nat) : Bool :=
  match c with
  | none => false
  | some n => decide (n ≠ 0)

/-- Truthiness of a cell of src/unnamed/part_000: cells hold Player objects,
and any object is truthy; only undefined is falsy. -/
def truthyObj (c : Option Nat) : Bool := c.isSome

/-- Cell list horiz of checkForWin (src/connect4.js line 139). -/
def horiz (y : Nat) (x : Int) : List (Nat × Int) :=
  [(y, x), (y, x + 1), (y, x + 2), (y, x + 3)]

/-- Cell list vert of checkForWin (src/connect4.js line 140). -/
def vert (y : Nat) (x : Int) : List (Nat × Int) :=
  [(y, x), (y + 1, x), (y + 2, x), (y + 3, x)]

/-- Cell list diagDR of checkForWin (src/connect4.js line 141). -/
def diagDR (y : Nat) (x : Int) : List (Nat × Int) :=
  [(y, x), (y + 1, x + 1), (y + 2, x + 2), (y + 3, x + 3)]

/-- Cell list diagDL of checkForWin (src/connect4.js line 142). -/
def diagDL (y : Nat) (x : Int) : List (Nat × Int) :=
  [(y, x), (y + 1, x - 1), (y + 2, x - 2), (y + 3, x - 3)]

/-- Body of _win (src/connect4.js lines 157-164) for one cell coordinate:
the coordinate is legal and the cell matches the active player.  The test
y >= 0 of the source is omitted because the row coordinate is a Nat (every
row coordinate the scan forms is y + i with i ≥ 0).  The comparison with
the active player (=== currPlayer in one variant, === players[currPlayer]
in the other) is the parameter eqP, applied to the raw cell content. -/
def winCell (H W : Nat) (b : Nat → Int → Option Nat) (eqP : Option Nat → Bool)
    (c : Nat × Int) : Bool :=
  decide (c.1 < H) && decide (0 ≤ c.2) && decide (c.2 < W) && eqP (b c.1 c.2)

/-- Method _win (src/connect4.js lines 152-165): cells.every(...). -/
def winList (H W : Nat) (b : Nat → Int → Option Nat) (eqP : Option Nat → Bool)
    (cells : List (Nat × Int)) : Bool :=
  cells.all (winCell H W b eqP)

/-- Method checkForWin (src/connect4.js lines 134-150): scan every (y, x) in
row-major order and test _win on horiz, vert, diagDR, diagDL in that order;
the missing return value of the source when no run is found is undefined,
that is falsy, embedded as false. -/
def winScan (H W : Nat) (b : Nat → Int → Option Nat) (eqP : Option Nat → Bool) : Bool :=
  (List.range H).any fun y =>
    (List.range W).any fun x =>
      winList H W b eqP (horiz y (x : Int)) || winList H W b eqP (vert y (x : Int)) ||
        winList H W b eqP (diagDR y (x : Int)) || winList H W b eqP (diagDL y (x : Int))

/-- Tie test of handleClick (src/connect4.js line 124):
this.board.every(row => row.every(cell => cell)), with the truthiness test
of one cell as parameter. -/
def allFull (H W : Nat) (t : Nat → Int → Bool) : Bool :=
  (List.range H).all fun y => (List.range W).all fun x => t y (x : Int)

namespace C4

/-- Game state of src/connect4.js: height, width, currPlayer (a number,
1 or 2 in every reachable state), the board, and the gameOver flag. -/
structure Game where
  height : Nat
  width : Nat
  currPlayer : Nat
  board : Nat → Int → Option Nat
  gameOver : Bool

/-- Comparison === this.currPlayer of _win (src/connect4.js line 163),
applied to the raw content of a cell. -/
def matchCur (g : Game) : Option Nat → Bool :=
  fun c => c == some g.currPlayer

/-- Method findSpotForCol (src/connect4.js lines 76-83). -/
def findSpotForCol (g : Game) (x : Int) : Option Nat :=
  findSpotAux (fun y => truthyNum (g.board y x)) g.height

/-- Method checkForWin (src/connect4.js lines 134-150). -/
def checkForWin (g : Game) : Bool :=
  winScan g.height g.width g.board (matchCur g)

/-- Tie test of handleClick (src/connect4.js line 124). -/
def isTie (g : Game) : Bool :=
  allFull g.height g.width (fun y x => truthyNum (g.board y x))

/-- State after the assignment this.board[y][x] = this.currPlayer
(src/connect4.js line 115). -/
def placedState (g : Game) (y : Nat) (x : Int) : Game :=
  { g with board := writeCell g.board y x (some g.currPlayer) }

/-- Method handleClick (src/connect4.js lines 103-131), for a click on the
column-top of column x.  Returns the new state and the alert message of
endGame when the game ends. -/
def handleClick (g : Game) (x : Int) : Game × Option String :=
  if g.gameOver then (g, none)
  else
    match findSpotForCol g x with
    | none => (g, none)
    | some y =>
      let g1 := placedState g y x
      if checkForWin g1 then
        ({ g1 with gameOver := true }, some ("Player " ++ toString g.currPlayer ++ " won!"))
      else if isTie g1 then
        ({ g1 with gameOver := true }, some "Tie!")
      else
        ({ g1 with currPlayer := if g.currPlayer == 1 then 2 else 1 }, none)

/-- A fresh game of src/connect4.js after the start-button click built the
board: currPlayer is 1 (constructor, line 12), every cell is empty
(makeBoard pushes rows of undefined cells), gameOver is false. -/
def initGame (h w : Nat) : Game :=
  { height := h, width := w, currPlayer := 1, board := fun _ _ => none, gameOver := false }

/-- Method resetGame of src/connect4.js (lines 29-34) together with the
makeBoard call of the start-button handler that rebuilds the empty rows:
the board becomes all-empty at the same dimensions and gameOver becomes
false; height, width and — notably — currPlayer are left untouched. -/
def resetGame (g : Game) : Game :=
  { g with board := fun _ _ => none, gameOver := false }

/-- Game of src/connect4.js started at dimensions h, w and fed the clicks
xs in order. -/
def playGame (h w : Nat) (xs : List Int) : Game :=
  xs.foldl (fun g x => (handleClick g x).1) (initGame h w)

end C4

namespace PV

/-- Game state of src/unnamed/part_000: height, width, the players array
(holding the allocation identities of the two Player objects pushed by
setPlayers), currPlayer (an index into players, 0 or 1 in every reachable
state), the board, and the gameOver flag. -/
structure Game where
  height : Nat
  width : Nat
  players : List Nat
  currPlayer : Nat
  board : Nat → Int → Option Nat
  gameOver : Bool

/-- Comparison === this.players[this.currPlayer] of _win
(src/unnamed/part_000 line 180): JavaScript === between the cell content
and the active Player object; undefined === undefined is true, so both
sides are embedded as Option values compared for equality. -/
def matchCur (g : Game) : Option Nat → Bool :=
  fun c => c == g.players.get? g.currPlayer

/-- Method findSpotForCol (src/unnamed/part_000 lines 92-100). -/
def findSpotForCol (g : Game) (x : Int) : Option Nat :=
  findSpotAux (fun y => truthyObj (g.board y x)) g.height

/-- Method checkForWin (src/unnamed/part_000 lines 150-167). -/
def checkForWin (g : Game) : Bool :=
  winScan g.height g.width g.board (matchCur g)

/-- Tie test of handleClick (src/unnamed/part_000 line 141). -/
def isTie (g : Game) : Bool :=
  allFull g.height g.width (fun y x => truthyObj (g.board y x))

/-- State after the assignment this.board[y][x] = this.players[this.currPlayer]
(src/unnamed/part_000 line 132). -/
def placedState (g : Game) (y : Nat) (x : Int) : Game :=
  { g with board := writeCell g.board y x (g.players.get? g.currPlayer) }

/-- Method handleClick (src/unnamed/part_000 lines 120-148). -/
def handleClick (g : Game) (x : Int) : Game × Option String :=
  if g.gameOver then (g, none)
  else
    match findSpotForCol g x with
    | none => (g, none)
    | some y =>
      let g1 := placedState g y x
      if checkForWin g1 then
        ({ g1 with gameOver := true },
          some ("Player " ++ toString (g.currPlayer + 1) ++ " won!"))
      else if isTie g1 then
        ({ g1 with gameOver := true }, some "Tie!")
      else
        ({ g1 with currPlayer := if g.currPlayer == 0 then 1 else 0 }, none)

/-- A fresh game of src/unnamed/part_000 after the start-button click ran
setPlayers and makeBoard: players holds the identities a and b of the two
freshly allocated Player objects, currPlayer is 0, every cell is empty,
gameOver is false. -/
def initGame (h w : Nat) (a b : Nat) : Game :=
  { height := h, width := w, players := [a, b], currPlayer := 0,
    board := fun _ _ => none, gameOver := false }

/-- Method resetGame of src/unnamed/part_000 (lines 37-44) together with the
makeBoard rebuild: the board becomes all-empty at the same dimensions, the
players array is emptied, currPlayer is set back to 0 (player 1) and
gameOver becomes false. -/
def resetGame (g : Game) : Game :=
  { g with board := fun _ _ => none, players := [], currPlayer := 0, gameOver := false }

/-- Game of src/unnamed/part_000 started at dimensions h, w with Player
objects a, b and fed the clicks xs in order. -/
def playGame (h w : Nat) (a b : Nat) (xs : List Int) : Game :=
  xs.foldl (fun g x => (handleClick g x).1) (initGame h w a b)

end PV

/-- Specification-side predicate, written from the claim wording: a winning
run of four cells starting at (y, x) with direction (dy, dx): every
coordinate (y, x) + i*(dy, dx) for i = 0..3 lies within [0, H) x [0, W)
and the cell there matches the active player. -/
def runOk (H W : Nat) (b : Nat → Int → Option Nat) (eqP : Option Nat → Bool)
    (y : Nat) (x : Int) (dy : Nat) (dx : Int) : Prop :=
  ∀ i : Nat, i < 4 →
    y + i * dy < H ∧ 0 ≤ x + (i : Int) * dx ∧ x + (i : Int) * dx < W ∧
      eqP (b (y + i * dy) (x + (i : Int) * dx)) = true

/-- Specification-side predicate: some cell starts a winning run in one of
the four directions horizontal (dx=+1), vertical (dy=+1),
diagonal-down-right (dy=+1, dx=+1), diagonal-down-left (dy=+1, dx=-1). -/
def winExists (H W : Nat) (b : Nat → Int → Option Nat) (eqP : Option Nat → Bool) : Prop :=
  ∃ (y : Nat) (x : Int),
    runOk H W b eqP y x 0 1 ∨ runOk H W b eqP y x 1 0 ∨
      runOk H W b eqP y x 1 1 ∨ runOk H W b eqP y x 1 (-1)

/-- Game of src/connect4.js with the columns mirrored: cell (y, x) of the
mirror holds cell (y, W-1-x) of the original; dimensions, active player and
gameOver are unchanged. -/
def C4.mirror (g : C4.Game) : C4.Game :=
  { g with board := fun y x => g.board y ((g.width : Int) - 1 - x) }

/-- Implicit state invariant of src/connect4.js claimed by C10: every
in-range cell is empty or holds a player number 1 or 2, and the active
player is 1 or 2. -/
def C4.inv (g : C4.Game) : Prop :=
  (∀ (y : Nat) (x : Int), y < g.height → 0 ≤ x → x < (g.width : Int) →
    g.board y x = none ∨ g.board y x = some 1 ∨ g.board y x = some 2) ∧
  (g.currPlayer = 1 ∨ g.currPlayer = 2)

/-- Implicit state invariant of src/unnamed/part_000 claimed by C10: the
players array holds exactly the two Player objects, every in-range cell is
empty or holds one of them, and the active index designates players[0] or
players[1]. -/
def PV.inv (g : PV.Game) : Prop :=
  ∃ a b, g.players = [a, b] ∧
    (∀ (y : Nat) (x : Int), y < g.height → 0 ≤ x → x < (g.width : Int) →
      g.board y x = none ∨ g.board y x = some a ∨ g.board y x = some b) ∧
    (g.currPlayer = 0 ∨ g.currPlayer = 1)

/-- Correspondence between a state of src/connect4.js and a state of
src/unnamed/part_000 (claim C8): same dimensions, same gameOver flag,
aligned active players (number 1 ↔ index 0, number 2 ↔ index 1) and aligned
cells (empty ↔ empty, number 1 ↔ first Player object, number 2 ↔ second
Player object), the two Player objects being distinct allocations. -/
def corresponds (g : C4.Game) (p : PV.Game) : Prop :=
  g.height = p.height ∧ g.width = p.width ∧ g.gameOver = p.gameOver ∧
    ∃ a b, p.players = [a, b] ∧ a ≠ b ∧
      ((g.currPlayer = 1 ∧ p.currPlayer = 0) ∨ (g.currPlayer = 2 ∧ p.currPlayer = 1)) ∧
      ∀ (y : Nat) (x : Int),
        (g.board y x = none ∧ p.board y x = none) ∨
        (g.board y x = some 1 ∧ p.board y x = some a) ∨
        (g.board y x = some 2 ∧ p.board y x = some b)

lemma forall_lt_four {P : Nat → Prop} : (∀ i, i < 4 → P i) ↔ P 0 ∧ P 1 ∧ P 2 ∧ P 3 := by
  constructor
  · intro h
    exact ⟨h 0 (by omega), h 1 (by omega), h 2 (by omega), h 3 (by omega)⟩
  · rintro ⟨h0, h1, h2, h3⟩ i hi
    interval_cases i <;> assumption

lemma findSpotAux_some_iff (t : Nat → Bool) (n y : Nat) :
    findSpotAux t n = some y ↔
      y < n ∧ t y = false ∧ ∀ z, y < z → z < n → t z = true := by
  induction n with
  | zero => simp [findSpotAux]
  | succ n ih =>
    rw [findSpotAux]
    by_cases h : t n = true
    · rw [if_pos h, ih]
      constructor
      · rintro ⟨h1, h2, h3⟩
        refine ⟨by omega, h2, fun z hz1 hz2 => ?_⟩
        rcases Nat.lt_succ_iff_lt_or_eq.mp hz2 with hz | hz
        · exact h3 z hz1 hz
        · subst hz; exact h
      · rintro ⟨h1, h2, h3⟩
        have hyn : y ≠ n := by
          intro e
          rw [e, h] at h2
          cases h2
        exact ⟨by omega, h2, fun z hz1 hz2 => h3 z hz1 (by omega)⟩
    · rw [if_neg h]
      have h' : t n = false := by
        cases hv : t n
        · rfl
        · exact absurd hv h
      constructor
      · intro e
        have hyn : y = n := by
          injection e with e'
          omega
        subst hyn
        exact ⟨by omega, h', fun z hz1 hz2 => by omega⟩
      · rintro ⟨h1, h2, h3⟩
        rcases Nat.lt_succ_iff_lt_or_eq.mp h1 with hy | hy
        · exact absurd (h3 n hy (by omega)) (by rw [h']; simp)
        · rw [hy]

lemma findSpotAux_none_iff (t : Nat → Bool) (n : Nat) :
    findSpotAux t n = none ↔ ∀ y, y < n → t y = true := by
  induction n with
  | zero => simp [findSpotAux]
  | succ n ih =>
    rw [findSpotAux]
    by_cases h : t n = true
    · rw [if_pos h, ih]
      constructor
      · intro h1 y hy
        rcases Nat.lt_succ_iff_lt_or_eq.mp hy with hz | hz
        · exact h1 y hz
        · subst hz; exact h
      · intro h1 y hy
        exact h1 y (by omega)
    · rw [if_neg h]
      constructor
      · intro e
        cases e
      · intro hall
        exact absurd (hall n (by omega)) h

lemma C4.handleClick_board_c4 (g : C4.Game) (x : Int) (hgo : g.gameOver = false)
    (y : Nat) (hy : C4.findSpotForCol g x = some y) :
    (C4.handleClick g x).1.board = writeCell g.board y x (some g.currPlayer) := by
  simp only [C4.handleClick, hgo, Bool.false_eq_true, if_false, hy]
  split
  · rfl
  · split <;> rfl

/-- C1: for an in-progress state and an in-range column whose cells are all
empty or a player number and which has at least one empty cell, handleClick
(the dropPiece operation) writes the active player's number into the cell at
the largest row index y with (y, x) empty, and leaves every other cell of
the board unchanged. -/
theorem c1_drop_lowest_empty (g : C4.Game) (x : Int)
    (hgo : g.gameOver = false) (hx0 : 0 ≤ x) (hxW : x < g.width)
    (hcol : ∀ z, z < g.height →
      g.board z x = none ∨ g.board z x = some 1 ∨ g.board z x = some 2)
    (y : Nat) (hyH : y < g.height) (hemp : g.board y x = none)
    (hmax : ∀ z, y < z → z < g.height → g.board z x ≠ none) :
    (C4.handleClick g x).1.board y x = some g.currPlayer ∧
      ∀ (y' : Nat) (x' : Int), ¬(y' = y ∧ x' = x) →
        (C4.handleClick g x).1.board y' x' = g.board y' x' := by
  have hfind : C4.findSpotForCol g x = some y := by
    rw [C4.findSpotForCol, findSpotAux_some_iff]
    refine ⟨hyH, by rw [hemp]; rfl, fun z hz1 hz2 => ?_⟩
    rcases hcol z hz2 with h | h | h
    · exact absurd h (hmax z hz1 hz2)
    · rw [h]; rfl
    · rw [h]; rfl
  rw [C4.handleClick_board_c4 g x hgo y hfind]
  constructor
  · simp [writeCell]
  · intro y' x' hne
    simp only [writeCell]
    rw [if_neg hne]

/-- Witness for c1_drop_lowest_empty at the fresh 6x7 board and column 0:
the piece lands in the bottom row. -/
theorem c1_drop_lowest_empty_witness :
    (C4.initGame 6 7).gameOver = false ∧ (C4.initGame 6 7).board 5 0 = none ∧
      (C4.handleClick (C4.initGame 6 7) 0).1.board 5 0 = some (C4.initGame 6 7).currPlayer :=
  ⟨rfl, rfl,
    (c1_drop_lowest_empty (C4.initGame 6 7) 0 rfl (by decide) (by decide)
      (fun z _ => Or.inl rfl) 5 (by decide) rfl
      (fun z hz1 hz2 => absurd (show z < 6 from hz2) (by omega))).1⟩

/-- C4: once the game is over (a win or a tie was announced), handleClick is
a no-op for every column input, in both variants: it returns the state
unchanged — board, active player and gameOver all intact — and raises no
report, so the game never returns to a playable state through a move. -/
theorem c4_game_over_noop :
    (∀ (g : C4.Game) (x : Int), g.gameOver = true → C4.handleClick g x = (g, none)) ∧
      (∀ (g : PV.Game) (x : Int), g.gameOver = true → PV.handleClick g x = (g, none)) := by
  constructor
  · intro g x h
    simp [C4.handleClick, h]
  · intro g x h
    simp [PV.handleClick, h]

/-- Witness for c4_game_over_noop at a finished 2x2 game. -/
theorem c4_game_over_noop_witness :
    ({ C4.initGame 2 2 with gameOver := true } : C4.Game).gameOver = true ∧
      C4.handleClick { C4.initGame 2 2 with gameOver := true } 0 =
        ({ C4.initGame 2 2 with gameOver := true }, none) :=
  ⟨rfl, c4_game_over_noop.1 { C4.initGame 2 2 with gameOver := true } 0 rfl⟩

/-- C5: a click on an in-range column whose cells are all occupied by a
player number is a no-op: findSpotForCol finds no empty spot, handleClick
returns the state unchanged — board, active player, status — with no
report, and, the embedding being a total function, no exception arises. -/
theorem c5_full_column_noop (g : C4.Game) (x : Int)
    (hx0 : 0 ≤ x) (hxW : x < g.width)
    (hfull : ∀ z, z < g.height → g.board z x = some 1 ∨ g.board z x = some 2) :
    C4.handleClick g x = (g, none) := by
  have hfind : C4.findSpotForCol g x = none := by
    rw [C4.findSpotForCol, findSpotAux_none_iff]
    intro z hz
    rcases hfull z hz with h | h <;> rw [h] <;> rfl
  cases hgo : g.gameOver
  · simp [C4.handleClick, hgo, hfind]
  · simp [C4.handleClick, hgo]

/-- Witness for c5_full_column_noop: after two drops into column 0 of a 2x2
game that column is full, and a third click there changes nothing. -/
theorem c5_full_column_noop_witness :
    C4.handleClick (C4.playGame 2 2 [0, 0]) 0 = (C4.playGame 2 2 [0, 0], none) :=
  c5_full_column_noop (C4.playGame 2 2 [0, 0]) 0 (by decide) (by decide)
    (fun z hz => by
      have h2 : z < 2 := hz
      interval_cases z
      · exact Or.inr (by decide)
      · exact Or.inl (by decide))

/-- C3: after a successful placement the evaluation order is strict — first
the win check on the just-placed board for the just-moved player; if it
fails, the tie check (the board has no falsy cell left); only if both fail
does the active player flip.  On a win or a tie the active player does not
change and gameOver is set with the matching message, so a move that both
completes a run and fills the board reports the win, never the tie, and
the turn alternates exactly when the game stays in progress. -/
theorem c3_post_placement_order (g : C4.Game) (x : Int)
    (hgo : g.gameOver = false) (y : Nat) (hy : C4.findSpotForCol g x = some y) :
    (C4.checkForWin (C4.placedState g y x) = true →
        C4.handleClick g x =
          ({ C4.placedState g y x with gameOver := true },
            some ("Player " ++ toString g.currPlayer ++ " won!"))) ∧
      (C4.checkForWin (C4.placedState g y x) = false →
        C4.isTie (C4.placedState g y x) = true →
          C4.handleClick g x =
            ({ C4.placedState g y x with gameOver := true }, some "Tie!")) ∧
      (C4.checkForWin (C4.placedState g y x) = false →
        C4.isTie (C4.placedState g y x) = false →
          C4.handleClick g x =
            ({ C4.placedState g y x with
                currPlayer := if g.currPlayer == 1 then 2 else 1 }, none)) := by
  refine ⟨fun hw => ?_, fun hw ht => ?_, fun hw ht => ?_⟩
  · simp [C4.handleClick, hgo, hy, hw]
  · simp [C4.handleClick, hgo, hy, hw, ht]
  · simp [C4.handleClick, hgo, hy, hw, ht]

/-- Witness for c3_post_placement_order: on a 1x1 board the single move
cannot win, fills the board, and is reported as a tie with no turn change. -/
theorem c3_post_placement_order_witness :
    (C4.initGame 1 1).gameOver = false ∧
      C4.findSpotForCol (C4.initGame 1 1) 0 = some 0 ∧
      C4.checkForWin (C4.placedState (C4.initGame 1 1) 0 0) = false ∧
      C4.isTie (C4.placedState (C4.initGame 1 1) 0 0) = true ∧
      C4.handleClick (C4.initGame 1 1) 0 =
        ({ C4.placedState (C4.initGame 1 1) 0 0 with gameOver := true }, some "Tie!") :=
  ⟨rfl, by decide, by decide, by decide,
    (c3_post_placement_order (C4.initGame 1 1) 0 rfl 0 (by decide)).2.1
      (by decide) (by decide)⟩

lemma winCell_true {H W : Nat} {b : Nat → Int → Option Nat} {eqP : Option Nat → Bool}
    {c : Nat × Int} :
    winCell H W b eqP c = true ↔
      c.1 < H ∧ 0 ≤ c.2 ∧ c.2 < W ∧ eqP (b c.1 c.2) = true := by
  simp [winCell, and_assoc]

lemma winList_horiz_iff {H W : Nat} {b : Nat → Int → Option Nat} {eqP : Option Nat → Bool}
    (y : Nat) (x : Int) :
    winList H W b eqP (horiz y x) = true ↔ runOk H W b eqP y x 0 1 := by
  simp only [winList, horiz, List.all_cons, List.all_nil, Bool.and_true, Bool.and_eq_true,
    winCell_true, runOk, forall_lt_four, Nat.cast_ofNat, Nat.cast_zero, Nat.cast_one,
    Nat.mul_zero, Nat.zero_mul, mul_zero, zero_mul, mul_one, one_mul, add_zero, zero_add]

lemma winList_vert_iff {H W : Nat} {b : Nat → Int → Option Nat} {eqP : Option Nat → Bool}
    (y : Nat) (x : Int) :
    winList H W b eqP (vert y x) = true ↔ runOk H W b eqP y x 1 0 := by
  simp only [winList, vert, List.all_cons, List.all_nil, Bool.and_true, Bool.and_eq_true,
    winCell_true, runOk, forall_lt_four, Nat.cast_ofNat, Nat.cast_zero, Nat.cast_one,
    Nat.mul_zero, Nat.zero_mul, mul_zero, zero_mul, mul_one, one_mul, add_zero, zero_add]

lemma winList_diagDR_iff {H W : Nat} {b : Nat → Int → Option Nat} {eqP : Option Nat → Bool}
    (y : Nat) (x : Int) :
    winList H W b eqP (diagDR y x) = true ↔ runOk H W b eqP y x 1 1 := by
  simp only [winList, diagDR, List.all_cons, List.all_nil, Bool.and_true, Bool.and_eq_true,
    winCell_true, runOk, forall_lt_four, Nat.cast_ofNat, Nat.cast_zero, Nat.cast_one,
    Nat.mul_zero, Nat.zero_mul, mul_zero, zero_mul, mul_one, one_mul, add_zero, zero_add]

lemma winList_diagDL_iff {H W : Nat} {b : Nat → Int → Option Nat} {eqP : Option Nat → Bool}
    (y : Nat) (x : Int) :
    winList H W b eqP (diagDL y x) = true ↔ runOk H W b eqP y x 1 (-1) := by
  simp only [winList, diagDL, List.all_cons, List.all_nil, Bool.and_true, Bool.and_eq_true,
    winCell_true, runOk, forall_lt_four, Nat.cast_ofNat, Nat.cast_zero, Nat.cast_one,
    Nat.mul_zero, Nat.zero_mul, mul_zero, zero_mul, mul_one, one_mul, add_zero, zero_add,
    sub_eq_add_neg, mul_neg_one, mul_neg, neg_neg, neg_zero]

lemma winScan_iff {H W : Nat} {b : Nat → Int → Option Nat} {eqP : Option Nat → Bool} :
    winScan H W b eqP = true ↔ winExists H W b eqP := by
  constructor
  · intro h
    simp only [winScan, List.any_eq_true, List.mem_range] at h
    obtain ⟨y, hy, x, hx, hwin⟩ := h
    simp only [Bool.or_eq_true, winList_horiz_iff, winList_vert_iff, winList_diagDR_iff,
      winList_diagDL_iff] at hwin
    exact ⟨y, (x : Int), by tauto⟩
  · rintro ⟨y, x, hrun⟩
    have hbase : y < H ∧ 0 ≤ x ∧ x < W := by
      rcases hrun with h | h | h | h <;>
        · obtain ⟨h1, h2, h3, -⟩ := h 0 (by omega)
          refine ⟨by omega, by omega, by omega⟩
    obtain ⟨hyH, hx0, hxW⟩ := hbase
    simp only [winScan, List.any_eq_true, List.mem_range]
    refine ⟨y, hyH, x.toNat, by omega, ?_⟩
    have hxx : ((x.toNat : Nat) : Int) = x := Int.toNat_of_nonneg hx0
    simp only [Bool.or_eq_true, winList_horiz_iff, winList_vert_iff, winList_diagDR_iff,
      winList_diagDL_iff, hxx]
    tauto

/-- C2: checkForWin of src/connect4.js reports a win iff some cell (y, x)
and one of the four directions — horizontal (dx=+1), vertical (dy=+1),
diagonal-down-right (dy=+1, dx=+1), diagonal-down-left (dy=+1, dx=-1) —
give a run whose four coordinates (y, x) + i*d, i = 0..3, all lie within
[0, H) x [0, W) and whose four cells all equal the currently active player
(the comparison matchCur); the scan itself is the row-major fold winScan
with the directions tried in the order horiz, vert, diagDR, diagDL, so the
first winning run found decides, deterministically. -/
theorem c2_checkForWin_iff (g : C4.Game) :
    C4.checkForWin g = true ↔
      winExists g.height g.width g.board (C4.matchCur g) := by
  rw [C4.checkForWin]
  exact winScan_iff

lemma winExists_of_mirror {H W : Nat} {b b' : Nat → Int → Option Nat} {eqP : Option Nat → Bool}
    (hb : ∀ (y : Nat) (x : Int), b' y x = b y ((W : Int) - 1 - x)) :
    winExists H W b' eqP → winExists H W b eqP := by
  rintro ⟨y, x, h | h | h | h⟩
  · refine ⟨y, (W : Int) - 4 - x, Or.inl fun j hj => ?_⟩
    obtain ⟨h1, h2, h3, h4⟩ := h (3 - j) (by omega)
    rw [hb] at h4
    refine ⟨by omega, by omega, by omega, ?_⟩
    have e1 : y + j * 0 = y := by omega
    have e2 : (W : Int) - 4 - x + (j : Int) * 1 =
        (W : Int) - 1 - (x + ((3 - j : Nat) : Int) * 1) := by omega
    rw [e1, e2]
    exact h4
  · refine ⟨y, (W : Int) - 1 - x, Or.inr (Or.inl fun i hi => ?_)⟩
    obtain ⟨h1, h2, h3, h4⟩ := h i hi
    rw [hb] at h4
    refine ⟨h1, by omega, by omega, ?_⟩
    have e2 : (W : Int) - 1 - x + (i : Int) * 0 = (W : Int) - 1 - (x + (i : Int) * 0) := by
      omega
    rw [e2]
    exact h4
  · refine ⟨y, (W : Int) - 1 - x, Or.inr (Or.inr (Or.inr fun i hi => ?_))⟩
    obtain ⟨h1, h2, h3, h4⟩ := h i hi
    rw [hb] at h4
    refine ⟨h1, by omega, by omega, ?_⟩
    have e2 : (W : Int) - 1 - x + (i : Int) * (-1) = (W : Int) - 1 - (x + (i : Int) * 1) := by
      omega
    rw [e2]
    exact h4
  · refine ⟨y, (W : Int) - 1 - x, Or.inr (Or.inr (Or.inl fun i hi => ?_))⟩
    obtain ⟨h1, h2, h3, h4⟩ := h i hi
    rw [hb] at h4
    refine ⟨h1, by omega, by omega, ?_⟩
    have e2 : (W : Int) - 1 - x + (i : Int) * 1 = (W : Int) - 1 - (x + (i : Int) * (-1)) := by
      omega
    rw [e2]
    exact h4

lemma winExists_mirror_iff {H W : Nat} {b b' : Nat → Int → Option Nat} {eqP : Option Nat → Bool}
    (hb : ∀ (y : Nat) (x : Int), b' y x = b y ((W : Int) - 1 - x)) :
    winExists H W b' eqP ↔ winExists H W b eqP := by
  constructor
  · exact winExists_of_mirror hb
  · apply winExists_of_mirror
    intro y x
    rw [hb y ((W : Int) - 1 - x)]
    have e : (W : Int) - 1 - ((W : Int) - 1 - x) = x := by omega
    rw [e]

/-- C9: win detection is symmetric under horizontal reflection — checkForWin
on the mirrored board, whose cell (y, x) holds the original cell
(y, W-1-x), wins iff checkForWin on the original board does — and a
reported win is exactly the existence of a run whose four coordinates all
lie within [0, H) x [0, W), so runs whose coordinates leave the grid never
count as wins. -/
theorem c9_mirror_symmetry (g : C4.Game) :
    (C4.checkForWin (C4.mirror g) = true ↔ C4.checkForWin g = true) ∧
      (C4.checkForWin g = true ↔ winExists g.height g.width g.board (C4.matchCur g)) := by
  constructor
  · rw [C4.checkForWin, C4.checkForWin, winScan_iff, winScan_iff]
    exact winExists_mirror_iff fun y x => rfl
  · rw [C4.checkForWin]
    exact winScan_iff

lemma bool_eq_of_iff {a b : Bool} (h : a = true ↔ b = true) : a = b := by
  cases a <;> cases b <;> simp_all

lemma winExists_congr {H W : Nat} {b b' : Nat → Int → Option Nat} {eqP : Option Nat → Bool}
    (h : ∀ (y : Nat) (x : Int), y < H → 0 ≤ x → x < (W : Int) → b y x = b' y x) :
    winExists H W b eqP ↔ winExists H W b' eqP := by
  have tr : ∀ (c c' : Nat → Int → Option Nat),
      (∀ (y : Nat) (x : Int), y < H → 0 ≤ x → x < (W : Int) → c y x = c' y x) →
      winExists H W c eqP → winExists H W c' eqP := by
    intro c c' hc
    rintro ⟨y, x, hr⟩
    refine ⟨y, x, ?_⟩
    have step : ∀ dy dx, runOk H W c eqP y x dy dx → runOk H W c' eqP y x dy dx := by
      intro dy dx hrun i hi
      obtain ⟨h1, h2, h3, h4⟩ := hrun i hi
      exact ⟨h1, h2, h3, by rw [← hc _ _ h1 h2 h3]; exact h4⟩
    rcases hr with hr | hr | hr | hr
    · exact Or.inl (step 0 1 hr)
    · exact Or.inr (Or.inl (step 1 0 hr))
    · exact Or.inr (Or.inr (Or.inl (step 1 1 hr)))
    · exact Or.inr (Or.inr (Or.inr (step 1 (-1) hr)))
  exact ⟨tr b b' h, tr b' b fun y x hy hx0 hxW => (h y x hy hx0 hxW).symm⟩

lemma winScan_congr {H W : Nat} {b b' : Nat → Int → Option Nat} {eqP : Option Nat → Bool}
    (h : ∀ (y : Nat) (x : Int), y < H → 0 ≤ x → x < (W : Int) → b y x = b' y x) :
    winScan H W b eqP = winScan H W b' eqP := by
  apply bool_eq_of_iff
  rw [winScan_iff, winScan_iff]
  exact winExists_congr h

lemma allFull_iff {H W : Nat} {t : Nat → Int → Bool} :
    allFull H W t = true ↔ ∀ y, y < H → ∀ x, x < W → t y (x : Int) = true := by
  simp [allFull, List.all_eq_true, List.mem_range]

lemma allFull_congr {H W : Nat} {t t' : Nat → Int → Bool}
    (h : ∀ (y : Nat) (x : Int), y < H → 0 ≤ x → x < (W : Int) → t y x = t' y x) :
    allFull H W t = allFull H W t' := by
  apply bool_eq_of_iff
  rw [allFull_iff, allFull_iff]
  constructor <;> intro ha y hy x hx
  · rw [← h y (x : Int) hy (by omega) (by omega)]
    exact ha y hy x hx
  · rw [h y (x : Int) hy (by omega) (by omega)]
    exact ha y hy x hx

/-- Counterexample to C6: the code validates nothing.  From the fresh 6x7
board, a click on column -1 is not rejected as InvalidColumn: the piece is
recorded at the out-of-grid position (5, -1) and the turn passes to player
2, so board and active player are not left unchanged. -/
theorem c6_counterexample :
    (C4.handleClick (C4.initGame 6 7) (-1)).1.currPlayer = 2 ∧
      (C4.handleClick (C4.initGame 6 7) (-1)).1.board 5 (-1) = some 1 ∧
      (C4.initGame 6 7).currPlayer = 1 ∧ (C4.initGame 6 7).board 5 (-1) = none := by
  refine ⟨?_, ?_, rfl, rfl⟩ <;> decide

/-- C6 amended: the code performs no column validation.  For a column x
outside [0, W) whose (out-of-grid) positions are all unwritten, an
in-progress click is processed like any move: reads of the column see only
absent cells, so findSpotForCol returns H-1 and the active player's number
is recorded at the out-of-grid position (H-1, x); every cell of every other
column — in particular the whole in-range grid — is unchanged, the game
ends exactly as the unchanged in-range grid dictates, and otherwise the
turn passes to the other player. -/
theorem c6_no_validation_out_of_range (g : C4.Game) (x : Int)
    (hgo : g.gameOver = false) (hH : 0 < g.height)
    (hout : ¬(0 ≤ x ∧ x < (g.width : Int)))
    (hcol : ∀ z, z < g.height → g.board z x = none) :
    (C4.handleClick g x).1.board (g.height - 1) x = some g.currPlayer ∧
      (∀ (y' : Nat) (x' : Int), x' ≠ x →
        (C4.handleClick g x).1.board y' x' = g.board y' x') ∧
      (C4.handleClick g x).1.gameOver = (C4.checkForWin g || C4.isTie g) ∧
      ((C4.checkForWin g || C4.isTie g) = false →
        (C4.handleClick g x).1.currPlayer = (if g.currPlayer == 1 then 2 else 1)) := by
  have hfind : C4.findSpotForCol g x = some (g.height - 1) := by
    rw [C4.findSpotForCol, findSpotAux_some_iff]
    refine ⟨by omega, by rw [hcol (g.height - 1) (by omega)]; rfl,
      fun z hz1 hz2 => absurd hz2 (by omega)⟩
  have hwrite : ∀ (y' : Nat) (x' : Int), x' ≠ x →
      (C4.placedState g (g.height - 1) x).board y' x' = g.board y' x' := by
    intro y' x' hne
    show writeCell g.board (g.height - 1) x (some g.currPlayer) y' x' = g.board y' x'
    simp only [writeCell]
    rw [if_neg fun hc => hne hc.2]
  have hinner : ∀ (y' : Nat) (x' : Int), y' < g.height → 0 ≤ x' → x' < (g.width : Int) →
      (C4.placedState g (g.height - 1) x).board y' x' = g.board y' x' := by
    intro y' x' hy hx0 hxW
    refine hwrite y' x' ?_
    intro e
    subst e
    exact hout ⟨hx0, hxW⟩
  have hwin : C4.checkForWin (C4.placedState g (g.height - 1) x) = C4.checkForWin g := by
    show winScan g.height g.width (C4.placedState g (g.height - 1) x).board (C4.matchCur g) =
      winScan g.height g.width g.board (C4.matchCur g)
    exact winScan_congr hinner
  have htie : C4.isTie (C4.placedState g (g.height - 1) x) = C4.isTie g := by
    show allFull g.height g.width
        (fun y x' => truthyNum ((C4.placedState g (g.height - 1) x).board y x')) =
      allFull g.height g.width (fun y x' => truthyNum (g.board y x'))
    apply allFull_congr
    intro y' x' hy hx0 hxW
    rw [hinner y' x' hy hx0 hxW]
  have hhit : (C4.placedState g (g.height - 1) x).board (g.height - 1) x =
      some g.currPlayer := by
    show writeCell g.board (g.height - 1) x (some g.currPlayer) (g.height - 1) x =
      some g.currPlayer
    simp [writeCell]
  simp only [C4.handleClick, hgo, Bool.false_eq_true, if_false, hfind]
  cases hw : C4.checkForWin (C4.placedState g (g.height - 1) x)
  · cases ht : C4.isTie (C4.placedState g (g.height - 1) x)
    · simp only [hw, ht, Bool.false_eq_true, if_false]
      refine ⟨hhit, hwrite, ?_, fun _ => trivial⟩
      rw [← hwin, ← htie, hw, ht]
      exact hgo
    · simp only [hw, ht, Bool.false_eq_true, if_false, if_true]
      refine ⟨hhit, hwrite, ?_, ?_⟩
      · rw [← hwin, ← htie, hw, ht]
        rfl
      · intro hfalse
        rw [← hwin, ← htie, hw, ht] at hfalse
        cases hfalse
  · simp only [hw, if_true]
    refine ⟨hhit, hwrite, ?_, ?_⟩
    · rw [← hwin, hw]
      rfl
    · intro hfalse
      rw [← hwin, hw] at hfalse
      cases hfalse

/-- Witness for c6_no_validation_out_of_range: a click on column -1 of the
fresh 6x7 board records player 1 at the out-of-grid position (5, -1). -/
theorem c6_no_validation_out_of_range_witness :
    (C4.initGame 6 7).gameOver = false ∧ 0 < (C4.initGame 6 7).height ∧
      ¬(0 ≤ (-1 : Int) ∧ (-1 : Int) < ((C4.initGame 6 7).width : Int)) ∧
      (C4.handleClick (C4.initGame 6 7) (-1)).1.board ((C4.initGame 6 7).height - 1) (-1) =
        some (C4.initGame 6 7).currPlayer :=
  ⟨rfl, by decide, by decide,
    (c6_no_validation_out_of_range (C4.initGame 6 7) (-1) rfl (by decide) (by decide)
      (fun z _ => rfl)).1⟩

/-- Counterexample to C7: in src/connect4.js resetGame does not touch
currPlayer.  After one move of a fresh 6x7 game the active player is 2, and
the reset state still has active player 2, not player 1. -/
theorem c7_counterexample :
    (C4.resetGame (C4.playGame 6 7 [0])).currPlayer = 2 ∧
      ¬(C4.resetGame (C4.playGame 6 7 [0])).currPlayer = 1 := by
  refine ⟨?_, ?_⟩ <;> decide

/-- C7 amended: in both variants reset rebuilds an all-empty board at the
unchanged dimensions and sets the status back to in-progress; the
src/unnamed/part_000 variant also sets the active player back to player 1
(index 0), while the src/connect4.js variant leaves the active player as it
was. -/
theorem c7_reset_state :
    (∀ g : C4.Game,
      (C4.resetGame g).height = g.height ∧ (C4.resetGame g).width = g.width ∧
        (∀ (y : Nat) (x : Int), (C4.resetGame g).board y x = none) ∧
        (C4.resetGame g).gameOver = false ∧
        (C4.resetGame g).currPlayer = g.currPlayer) ∧
    (∀ g : PV.Game,
      (PV.resetGame g).height = g.height ∧ (PV.resetGame g).width = g.width ∧
        (∀ (y : Nat) (x : Int), (PV.resetGame g).board y x = none) ∧
        (PV.resetGame g).gameOver = false ∧
        (PV.resetGame g).currPlayer = 0) :=
  ⟨fun g => ⟨rfl, rfl, fun _ _ => rfl, rfl, rfl⟩,
    fun g => ⟨rfl, rfl, fun _ _ => rfl, rfl, rfl⟩⟩

lemma winScan_eq_of_pointwise {H W : Nat} {b b' : Nat → Int → Option Nat}
    {eqA eqB : Option Nat → Bool}
    (h : ∀ (y : Nat) (x : Int), eqA (b y x) = eqB (b' y x)) :
    winScan H W b eqA = winScan H W b' eqB := by
  have hcell : winCell H W b eqA = winCell H W b' eqB := by
    funext c
    unfold winCell
    rw [h c.1 c.2]
  unfold winScan winList
  rw [hcell]

lemma allFull_eq_of_pointwise {H W : Nat} {t t' : Nat → Int → Bool}
    (h : ∀ (y : Nat) (x : Int), t y x = t' y x) :
    allFull H W t = allFull H W t' := by
  have he : t = t' := funext fun y => funext fun x => h y x
  rw [he]

lemma corresponds_step {g : C4.Game} {p : PV.Game} (hc : corresponds g p) (x : Int) :
    corresponds (C4.handleClick g x).1 (PV.handleClick p x).1 := by
  obtain ⟨hH, hW, hgo, a, b, hp, hab, hcp, hcell⟩ := hc
  have htruthy : ∀ (y : Nat) (x' : Int),
      truthyNum (g.board y x') = truthyObj (p.board y x') := by
    intro y x'
    rcases hcell y x' with ⟨e1, e2⟩ | ⟨e1, e2⟩ | ⟨e1, e2⟩ <;> rw [e1, e2] <;> rfl
  have hfind : C4.findSpotForCol g x = PV.findSpotForCol p x := by
    rw [C4.findSpotForCol, PV.findSpotForCol, hH]
    congr 1
    funext y
    exact htruthy y x
  cases hgov : g.gameOver with
  | true =>
    have hgovp : p.gameOver = true := by rw [← hgo]; exact hgov
    have e1 : (C4.handleClick g x).1 = g := by simp [C4.handleClick, hgov]
    have e2 : (PV.handleClick p x).1 = p := by simp [PV.handleClick, hgovp]
    rw [e1, e2]
    exact ⟨hH, hW, hgo, a, b, hp, hab, hcp, hcell⟩
  | false =>
    have hgovp : p.gameOver = false := by rw [← hgo]; exact hgov
    cases hf : C4.findSpotForCol g x with
    | none =>
      have hfp : PV.findSpotForCol p x = none := by rw [← hfind]; exact hf
      have e1 : (C4.handleClick g x).1 = g := by simp [C4.handleClick, hgov, hf]
      have e2 : (PV.handleClick p x).1 = p := by simp [PV.handleClick, hgovp, hfp]
      rw [e1, e2]
      exact ⟨hH, hW, hgo, a, b, hp, hab, hcp, hcell⟩
    | some y =>
      have hfp : PV.findSpotForCol p x = some y := by rw [← hfind]; exact hf
      have hcell1 : ∀ (y' : Nat) (x' : Int),
          ((C4.placedState g y x).board y' x' = none ∧
            (PV.placedState p y x).board y' x' = none) ∨
          ((C4.placedState g y x).board y' x' = some 1 ∧
            (PV.placedState p y x).board y' x' = some a) ∨
          ((C4.placedState g y x).board y' x' = some 2 ∧
            (PV.placedState p y x).board y' x' = some b) := by
        intro y' x'
        simp only [C4.placedState, PV.placedState, writeCell]
        by_cases he : y' = y ∧ x' = x
        · rw [if_pos he, if_pos he]
          rcases hcp with ⟨f1, f2⟩ | ⟨f1, f2⟩
          · right; left
            exact ⟨by rw [f1], by rw [f2, hp]; rfl⟩
          · right; right
            exact ⟨by rw [f1], by rw [f2, hp]; rfl⟩
        · rw [if_neg he, if_neg he]
          exact hcell y' x'
      have hcomp : ∀ (y' : Nat) (x' : Int),
          C4.matchCur g ((C4.placedState g y x).board y' x') =
            PV.matchCur p ((PV.placedState p y x).board y' x') := by
        intro y' x'
        rcases hcell1 y' x' with ⟨e1, e2⟩ | ⟨e1, e2⟩ | ⟨e1, e2⟩ <;> rw [e1, e2] <;>
          rcases hcp with ⟨f1, f2⟩ | ⟨f1, f2⟩ <;>
            simp [C4.matchCur, PV.matchCur, hp, f1, f2, hab, Ne.symm hab]
      have hwin1 : C4.checkForWin (C4.placedState g y x) =
          PV.checkForWin (PV.placedState p y x) := by
        show winScan g.height g.width (C4.placedState g y x).board (C4.matchCur g) =
          winScan p.height p.width (PV.placedState p y x).board (PV.matchCur p)
        rw [hH, hW]
        exact winScan_eq_of_pointwise hcomp
      have htie1 : C4.isTie (C4.placedState g y x) = PV.isTie (PV.placedState p y x) := by
        show allFull g.height g.width
            (fun y' x' => truthyNum ((C4.placedState g y x).board y' x')) =
          allFull p.height p.width
            (fun y' x' => truthyObj ((PV.placedState p y x).board y' x'))
        rw [hH, hW]
        apply allFull_eq_of_pointwise
        intro y' x'
        rcases hcell1 y' x' with ⟨e1, e2⟩ | ⟨e1, e2⟩ | ⟨e1, e2⟩ <;> rw [e1, e2] <;> rfl
      simp only [C4.handleClick, PV.handleClick, hgov, hgovp, Bool.false_eq_true, if_false,
        hf, hfp]
      cases hcw : C4.checkForWin (C4.placedState g y x) with
      | true =>
        have hcwp : PV.checkForWin (PV.placedState p y x) = true := by
          rw [← hwin1]; exact hcw
        simp only [hcw, hcwp, if_true]
        exact ⟨hH, hW, rfl, a, b, hp, hab, hcp, hcell1⟩
      | false =>
        have hcwp : PV.checkForWin (PV.placedState p y x) = false := by
          rw [← hwin1]; exact hcw
        cases hti : C4.isTie (C4.placedState g y x) with
        | true =>
          have htip : PV.isTie (PV.placedState p y x) = true := by
            rw [← htie1]; exact hti
          simp only [hcw, hcwp, hti, htip, Bool.false_eq_true, if_false, if_true]
          exact ⟨hH, hW, rfl, a, b, hp, hab, hcp, hcell1⟩
        | false =>
          have htip : PV.isTie (PV.placedState p y x) = false := by
            rw [← htie1]; exact hti
          simp only [hcw, hcwp, hti, htip, Bool.false_eq_true, if_false]
          refine ⟨hH, hW, hgo, a, b, hp, hab, ?_, hcell1⟩
          rcases hcp with ⟨f1, f2⟩ | ⟨f1, f2⟩
          · right
            exact ⟨by simp [f1], by simp [f2]⟩
          · left
            exact ⟨by simp [f1], by simp [f2]⟩

lemma corresponds_foldl {g : C4.Game} {p : PV.Game} (hc : corresponds g p) (xs : List Int) :
    corresponds (xs.foldl (fun s x => (C4.handleClick s x).1) g)
      (xs.foldl (fun s x => (PV.handleClick s x).1) p) := by
  induction xs generalizing g p with
  | nil => exact hc
  | cons x xs ih => exact ih (corresponds_step hc x)

/-- C8: the two implementation variants are behaviorally equivalent.
Started at the same dimensions — player numbers 1/2 in src/connect4.js,
two distinct Player objects a, b in src/unnamed/part_000 — and fed any
sequence of column inputs, they are in corresponding states after every
step: same cells empty, cells holding 1 exactly where the other holds the
first Player object, cells holding 2 exactly where it holds the second,
aligned active players and identical gameOver status. -/
theorem c8_variant_equivalence (h w : Nat) (a b : Nat) (hab : a ≠ b) (xs : List Int) :
    corresponds (C4.playGame h w xs) (PV.playGame h w a b xs) := by
  have hinit : corresponds (C4.initGame h w) (PV.initGame h w a b) :=
    ⟨rfl, rfl, rfl, a, b, rfl, hab, Or.inl ⟨rfl, rfl⟩, fun y x => Or.inl ⟨rfl, rfl⟩⟩
  rw [C4.playGame, PV.playGame]
  exact corresponds_foldl hinit xs

/-- Witness for c8_variant_equivalence with Player objects 0 and 1 and two
clicks on column 3 of the 6x7 board. -/
theorem c8_variant_equivalence_witness :
    (0 : Nat) ≠ 1 ∧
      (C4.playGame 6 7 [3, 3]).gameOver = (PV.playGame 6 7 0 1 [3, 3]).gameOver :=
  ⟨by decide, (c8_variant_equivalence 6 7 0 1 (by decide) [3, 3]).2.2.1⟩

lemma PV.handleClick_board_pv (p : PV.Game) (x : Int) (hgo : p.gameOver = false)
    (y : Nat) (hy : PV.findSpotForCol p x = some y) :
    (PV.handleClick p x).1.board = writeCell p.board y x (p.players.get? p.currPlayer) := by
  simp only [PV.handleClick, hgo, Bool.false_eq_true, if_false, hy]
  split
  · rfl
  · split <;> rfl

lemma C4.handleClick_dims_c4 (g : C4.Game) (x : Int) :
    (C4.handleClick g x).1.height = g.height ∧ (C4.handleClick g x).1.width = g.width ∧
      ((C4.handleClick g x).1.currPlayer = g.currPlayer ∨
        (C4.handleClick g x).1.currPlayer = (if g.currPlayer == 1 then 2 else 1)) := by
  cases hgov : g.gameOver with
  | true => simp [C4.handleClick, hgov]
  | false =>
    cases hf : C4.findSpotForCol g x with
    | none => simp [C4.handleClick, hgov, hf]
    | some y =>
      simp only [C4.handleClick, hgov, Bool.false_eq_true, if_false, hf]
      cases hcw : C4.checkForWin (C4.placedState g y x) with
      | true => simp [hcw, C4.placedState]
      | false =>
        cases hti : C4.isTie (C4.placedState g y x) with
        | true => simp [hcw, hti, C4.placedState]
        | false => simp [hcw, hti, C4.placedState]

lemma PV.handleClick_dims_pv (p : PV.Game) (x : Int) :
    (PV.handleClick p x).1.height = p.height ∧ (PV.handleClick p x).1.width = p.width ∧
      (PV.handleClick p x).1.players = p.players ∧
      ((PV.handleClick p x).1.currPlayer = p.currPlayer ∨
        (PV.handleClick p x).1.currPlayer = (if p.currPlayer == 0 then 1 else 0)) := by
  cases hgov : p.gameOver with
  | true => simp [PV.handleClick, hgov]
  | false =>
    cases hf : PV.findSpotForCol p x with
    | none => simp [PV.handleClick, hgov, hf]
    | some y =>
      simp only [PV.handleClick, hgov, Bool.false_eq_true, if_false, hf]
      cases hcw : PV.checkForWin (PV.placedState p y x) with
      | true => simp [hcw, PV.placedState]
      | false =>
        cases hti : PV.isTie (PV.placedState p y x) with
        | true => simp [hcw, hti, PV.placedState]
        | false => simp [hcw, hti, PV.placedState]

lemma C4.handleClick_board_cases_c4 (g : C4.Game) (x : Int) :
    (C4.handleClick g x).1.board = g.board ∨
      ∃ y, C4.findSpotForCol g x = some y ∧ truthyNum (g.board y x) = false ∧
        y < g.height ∧
        (C4.handleClick g x).1.board = writeCell g.board y x (some g.currPlayer) := by
  cases hgov : g.gameOver with
  | true =>
    left
    simp [C4.handleClick, hgov]
  | false =>
    cases hf : C4.findSpotForCol g x with
    | none =>
      left
      simp [C4.handleClick, hgov, hf]
    | some y =>
      right
      have hspec := (findSpotAux_some_iff (fun z => truthyNum (g.board z x)) g.height y).mp hf
      exact ⟨y, rfl, hspec.2.1, hspec.1, C4.handleClick_board_c4 g x hgov y hf⟩

lemma PV.handleClick_board_cases_pv (p : PV.Game) (x : Int) :
    (PV.handleClick p x).1.board = p.board ∨
      ∃ y, PV.findSpotForCol p x = some y ∧ truthyObj (p.board y x) = false ∧
        y < p.height ∧
        (PV.handleClick p x).1.board = writeCell p.board y x (p.players.get? p.currPlayer) := by
  cases hgov : p.gameOver with
  | true =>
    left
    simp [PV.handleClick, hgov]
  | false =>
    cases hf : PV.findSpotForCol p x with
    | none =>
      left
      simp [PV.handleClick, hgov, hf]
    | some y =>
      right
      have hspec := (findSpotAux_some_iff (fun z => truthyObj (p.board z x)) p.height y).mp hf
      exact ⟨y, rfl, hspec.2.1, hspec.1, PV.handleClick_board_pv p x hgov y hf⟩

/-- C10: in both variants and for every column input, handleClick preserves
the implicit invariant — every in-range cell is empty or holds the identity
of one of the game's two players (number 1 or 2 in src/connect4.js, one of
the two Player objects in src/unnamed/part_000) and the active-player field
designates one of the two players — and no call ever changes an in-range
cell that was occupied: the only grid cell a move may change was empty. -/
theorem c10_cell_player_invariant :
    (∀ (g : C4.Game) (x : Int), C4.inv g →
      C4.inv (C4.handleClick g x).1 ∧
        ∀ (y : Nat) (x' : Int), y < g.height → 0 ≤ x' → x' < (g.width : Int) →
          (C4.handleClick g x).1.board y x' ≠ g.board y x' → g.board y x' = none) ∧
    (∀ (p : PV.Game) (x : Int), PV.inv p →
      PV.inv (PV.handleClick p x).1 ∧
        ∀ (y : Nat) (x' : Int), y < p.height → 0 ≤ x' → x' < (p.width : Int) →
          (PV.handleClick p x).1.board y x' ≠ p.board y x' → p.board y x' = none) := by
  constructor
  · rintro g x ⟨hcells, hcp⟩
    obtain ⟨hh, hw2, hcurr⟩ := C4.handleClick_dims_c4 g x
    have hcurrInv : (C4.handleClick g x).1.currPlayer = 1 ∨
        (C4.handleClick g x).1.currPlayer = 2 := by
      rcases hcurr with hc | hc
      · rw [hc]; exact hcp
      · rw [hc]
        rcases hcp with h | h <;> rw [h]
        · right; rfl
        · left; rfl
    rcases C4.handleClick_board_cases_c4 g x with hb | ⟨y, hf, hempty, hyH, hb⟩
    · refine ⟨⟨?_, hcurrInv⟩, ?_⟩
      · intro y' x' h1 h2 h3
        rw [hb]
        exact hcells y' x' (hh ▸ h1) h2 (hw2 ▸ h3)
      · intro y' x' _ _ _ hne
        rw [hb] at hne
        exact absurd rfl hne
    · refine ⟨⟨?_, hcurrInv⟩, ?_⟩
      · intro y' x' h1 h2 h3
        rw [hb]
        simp only [writeCell]
        by_cases he : y' = y ∧ x' = x
        · rw [if_pos he]
          rcases hcp with h | h <;> rw [h]
          · exact Or.inr (Or.inl rfl)
          · exact Or.inr (Or.inr rfl)
        · rw [if_neg he]
          exact hcells y' x' (hh ▸ h1) h2 (hw2 ▸ h3)
      · intro y' x' h1 h2 h3 hne
        rw [hb] at hne
        simp only [writeCell] at hne
        by_cases he : y' = y ∧ x' = x
        · rw [← he.1, ← he.2] at hempty
          rcases hcells y' x' h1 h2 h3 with h | h | h
          · exact h
          · rw [h] at hempty; cases hempty
          · rw [h] at hempty; cases hempty
        · rw [if_neg he] at hne
          exact absurd rfl hne
  · rintro p x ⟨a, b, hp, hcells, hcp⟩
    obtain ⟨hh, hw2, hpl, hcurr⟩ := PV.handleClick_dims_pv p x
    have hcurrInv : (PV.handleClick p x).1.currPlayer = 0 ∨
        (PV.handleClick p x).1.currPlayer = 1 := by
      rcases hcurr with hc | hc
      · rw [hc]; exact hcp
      · rw [hc]
        rcases hcp with h | h <;> rw [h]
        · right; rfl
        · left; rfl
    rcases PV.handleClick_board_cases_pv p x with hb | ⟨y, hf, hempty, hyH, hb⟩
    · refine ⟨⟨a, b, by rw [hpl]; exact hp, ?_, hcurrInv⟩, ?_⟩
      · intro y' x' h1 h2 h3
        rw [hb]
        exact hcells y' x' (hh ▸ h1) h2 (hw2 ▸ h3)
      · intro y' x' _ _ _ hne
        rw [hb] at hne
        exact absurd rfl hne
    · refine ⟨⟨a, b, by rw [hpl]; exact hp, ?_, hcurrInv⟩, ?_⟩
      · intro y' x' h1 h2 h3
        rw [hb]
        simp only [writeCell]
        by_cases he : y' = y ∧ x' = x
        · rw [if_pos he]
          rcases hcp with h | h <;> rw [h, hp]
          · exact Or.inr (Or.inl rfl)
          · exact Or.inr (Or.inr rfl)
        · rw [if_neg he]
          exact hcells y' x' (hh ▸ h1) h2 (hw2 ▸ h3)
      · intro y' x' h1 h2 h3 hne
        rw [hb] at hne
        simp only [writeCell] at hne
        by_cases he : y' = y ∧ x' = x
        · rw [← he.1, ← he.2] at hempty
          cases hcv : p.board y' x' with
          | none => rfl
          | some v => rw [hcv] at hempty; cases hempty
        · rw [if_neg he] at hne
          exact absurd rfl hne

/-- Witness for c10_cell_player_invariant: the fresh 6x7 game satisfies the
invariant and still does after a click on column 0. -/
theorem c10_cell_player_invariant_witness :
    C4.inv (C4.initGame 6 7) ∧ C4.inv (C4.handleClick (C4.initGame 6 7) 0).1 :=
  have hinv : C4.inv (C4.initGame 6 7) := ⟨fun y x _ _ _ => Or.inl rfl, Or.inl rfl⟩
  ⟨hinv, (c10_cell_player_invariant.1 (C4.initGame 6 7) 0 hinv).1⟩
